import Mathlib

/-!
Verification of the scopefn library (src/scopefn.hpp): a header-only C++
combinator library offering Kotlin-style scope functions.  The embedding has
two layers.  A type-level layer models the compile-time signature deduction
(FuncType, FuncTypeNoArg, LambdaReflection, LambdaReflectionNoArg) and the
static_assert acceptance checks of each combinator.  A dynamic layer models
objects as cells of a heap, C++ references as cell indices, one-argument
callables as functions on the referenced value returning the updated value
together with a result, and zero-argument capturing callables as heap
transformers.
-/

namespace scopefn

/-! ## Type-level model: C++ types and signature deduction -/

/-- A C++ type as far as the library inspects it: an underlying class name
plus top-level const and reference qualifiers. -/
structure QualType where
  base : String
  isConst : Bool
  isRef : Bool
deriving DecidableEq, Repr

/-- Model of the alias base_type (src/scopefn.hpp lines 16-17):
std::remove_cv of std::remove_reference, stripping the reference and the
top-level cv qualifier. -/
def base_type (t : QualType) : QualType := ⟨t.base, false, false⟩

/-- An unqualified class type, such as the CRTP Base parameter or the
deduced type of an lvalue context object. -/
def plain (name : String) : QualType := ⟨name, false, false⟩

/-- The signature of a callable as deduced through std::function class
template argument deduction: the declared return type and the list of
declared parameter types. -/
structure LambdaSig where
  ret : QualType
  params : List QualType
deriving DecidableEq, Repr

namespace scopefn_internal

/-- FuncType (src/scopefn.hpp lines 26-32) deduces from
std::function with exactly one argument; any other arity fails. -/
def FuncType.deduces (sig : LambdaSig) : Bool := sig.params.length == 1

/-- FuncTypeNoArg (src/scopefn.hpp lines 41-47) deduces from
std::function with no argument. -/
def FuncTypeNoArg.deduces (sig : LambdaSig) : Bool := sig.params.isEmpty

/-- LambdaReflection argument_type (src/scopefn.hpp line 62): defined only
for unary callables, and qualifier-stripped through base_type. -/
def LambdaReflection.argument_type (sig : LambdaSig) : Option QualType :=
  match sig.params with
  | [p] => some (base_type p)
  | _ => none

/-- LambdaReflection return_type (src/scopefn.hpp line 61): defined only
for unary callables, and qualifier-stripped through base_type. -/
def LambdaReflection.return_type (sig : LambdaSig) : Option QualType :=
  if sig.params.length = 1 then some (base_type sig.ret) else none

/-- LambdaReflectionNoArg return_type (src/scopefn.hpp line 74): defined
only for nullary callables, qualifier-stripped through base_type. -/
def LambdaReflectionNoArg.return_type (sig : LambdaSig) : Option QualType :=
  if sig.params = [] then some (base_type sig.ret) else none

end scopefn_internal

/-! ## Compile-time acceptance checks

Each check reflects whether the corresponding template instantiation is
well-formed in the source: the signature deduction must succeed and the
static_assert (when present) must hold.  A host or context object type is a
plain class type, named by a string. -/

/-- Mixin let (src/scopefn.hpp lines 101-108): LambdaReflection must deduce
and the static_assert requires argument_type to equal Base. -/
def mixinLetAccepts (host : String) (sig : LambdaSig) : Bool :=
  scopefn_internal.LambdaReflection.argument_type sig == some (plain host)

/-- Mixin run (src/scopefn.hpp lines 120-124): the return type comes from
LambdaReflectionNoArg, so deduction requires a nullary callable. -/
def mixinRunAccepts (sig : LambdaSig) : Bool :=
  (scopefn_internal.LambdaReflectionNoArg.return_type sig).isSome

/-- Mixin apply (src/scopefn.hpp lines 136-142): no reflection trait is
used, but the body calls the callable with no arguments, so a callable that
is not nullary fails to instantiate. -/
def mixinApplyAccepts (sig : LambdaSig) : Bool :=
  sig.params.isEmpty

/-- Mixin also (src/scopefn.hpp lines 154-164): LambdaReflection must
deduce and the static_assert requires Base to equal argument_type. -/
def mixinAlsoAccepts (host : String) (sig : LambdaSig) : Bool :=
  scopefn_internal.LambdaReflection.argument_type sig == some (plain host)

/-- Chaining operator on the freestanding let wrapper (src/scopefn.hpp
lines 195-220): instantiating the wrapper requires unary deduction and the
static_assert requires is_same of the context type and ARG. -/
def letPipeAccepts (ctx : String) (sig : LambdaSig) : Bool :=
  scopefn_internal.LambdaReflection.argument_type sig == some (plain ctx)

/-- Chaining operator on the freestanding run wrapper (src/scopefn.hpp
lines 252-271): only nullary deduction is required; the context operand is
ignored. -/
def runPipeAccepts (sig : LambdaSig) : Bool :=
  (scopefn_internal.LambdaReflectionNoArg.return_type sig).isSome

/-- Chaining operator on the freestanding also wrapper (src/scopefn.hpp
lines 328-353): unary deduction plus the is_same static_assert. -/
def alsoPipeAccepts (ctx : String) (sig : LambdaSig) : Bool :=
  scopefn_internal.LambdaReflection.argument_type sig == some (plain ctx)

/-- The freestanding with wrapper (src/scopefn.hpp lines 282-293): only
nullary deduction is required to construct it. -/
def withAccepts (sig : LambdaSig) : Bool :=
  (scopefn_internal.LambdaReflectionNoArg.return_type sig).isSome

/-- The four freestanding wrapper kinds defined by the header. -/
inductive WrapperKind where
  | letK | runK | alsoK | withK
deriving DecidableEq, Repr

/-- Which wrapper kinds can stand as the right operand of the chaining
operator: the source defines operator overloads for the let, run and also
wrappers (src/scopefn.hpp lines 195-220, 252-271, 328-353) and none for
with. -/
def hasChainOp : WrapperKind → Bool
  | .letK => true
  | .runK => true
  | .alsoK => true
  | .withK => false

/-! ## Dynamic model: heap, references, combinators

A C++ object is a cell of a heap; a reference is the index of its cell.
Materializing a temporary (binding a value returned by value to the rvalue
overload of the chaining operator) allocates a fresh cell. -/

/-- A reference is a heap cell index. -/
abbrev Ref := Nat

/-- A heap: cell contents plus the next fresh cell index.  Cells below
next are the live objects. -/
structure Heap (α : Type) where
  mem : Nat → α
  next : Nat

/-- Reading the object a reference designates. -/
def Heap.read (h : Heap α) (r : Ref) : α := h.mem r

/-- Writing through a reference: an in-place update of its cell. -/
def Heap.write (h : Heap α) (r : Ref) (v : α) : Heap α :=
  ⟨fun i => if i = r then v else h.mem i, h.next⟩

/-- Materializing a temporary object: the value is placed in a fresh cell
and the reference to that cell is returned. -/
def Heap.alloc (h : Heap α) (v : α) : Heap α × Ref :=
  (⟨fun i => if i = h.next then v else h.mem i, h.next + 1⟩, h.next)

namespace ScopeFunctions

/-- Mixin let (src/scopefn.hpp lines 101-108): the callable receives the
host object by mutable reference; the source returns lambda applied to the
dereferenced this pointer.  In the heap model the callable f maps the
current value of the host cell to its updated value together with the
result; the update lands in the same cell. -/
def «let» (h : Heap α) (self : Ref) (f : α → α × β) : Heap α × β :=
  let p := f (h.read self)
  (h.write self p.1, p.2)

/-- Mixin run (src/scopefn.hpp lines 120-124): the source returns lambda
applied to nothing; the callable acts only through its captures, modelled
as a heap transformer. -/
def run (h : Heap α) (_self : Ref) (g : Heap α → Heap α × β) : Heap α × β :=
  g h

/-- Mixin apply (src/scopefn.hpp lines 136-142): the source invokes the
nullary callable, discards its result and returns the dereferenced this
pointer, a mutable reference to the host. -/
def apply (h : Heap α) (self : Ref) (g : Heap α → Heap α × γ) : Heap α × Ref :=
  ((g h).1, self)

/-- Mixin also (src/scopefn.hpp lines 154-164): the source invokes the
callable on the dereferenced this pointer, discards its result and returns
the dereferenced this pointer. -/
def also (h : Heap α) (self : Ref) (f : α → α × γ) : Heap α × Ref :=
  (h.write self (f (h.read self)).1, self)

end ScopeFunctions

/-! ## Freestanding wrappers

Each wrapper owns a copy of its callable, stored as a std::function of the
deduced signature.  The Lean names carry a W suffix because let and with
are reserved words. -/

/-- Freestanding let wrapper (src/scopefn.hpp lines 175-184): stores the
callable as std::function of RT taking ARG by mutable reference. -/
structure letW (α β : Type) where
  fn : α → α × β

/-- The call operator of the let wrapper (src/scopefn.hpp line 181): runs
the stored callable on the context object through the reference and
returns the result by value. -/
def letW.call (w : letW α β) (h : Heap α) (r : Ref) : Heap α × β :=
  let p := w.fn (h.read r)
  (h.write r p.1, p.2)

/-- Chaining operator for the let wrapper (src/scopefn.hpp lines 195-220):
returns the wrapper applied to the context object. -/
def letPipe (h : Heap α) (r : Ref) (w : letW α β) : Heap α × β :=
  w.call h r

/-- Freestanding run wrapper (src/scopefn.hpp lines 230-241): stores the
nullary callable, modelled as a heap transformer acting through captures. -/
structure runW (α β : Type) where
  fn : Heap α → Heap α × β

/-- The call operator of the run wrapper (src/scopefn.hpp lines 235-238). -/
def runW.call (w : runW α β) (h : Heap α) : Heap α × β := w.fn h

/-- Chaining operator for the run wrapper (src/scopefn.hpp lines 252-271):
the context operand is ignored and the wrapper is invoked with no
arguments. -/
def runPipe (h : Heap α) (_r : Ref) (w : runW α β) : Heap α × β :=
  w.call h

/-- Freestanding also wrapper (src/scopefn.hpp lines 304-317): the RT
alias is hardwired to void and the callable is stored as a void-returning
std::function, so the stored function has already discarded the result. -/
structure alsoW (α : Type) where
  fn : α → α

/-- The converting constructor of the also wrapper (src/scopefn.hpp line
309): a callable of any result type is stored as a void-returning
function, discarding its result. -/
def alsoW.ofLambda (f : α → α × γ) : alsoW α :=
  ⟨fun a => (f a).1⟩

/-- The call operator of the also wrapper (src/scopefn.hpp lines 310-314):
runs the stored callable on the context object and returns the context
object reference itself. -/
def alsoW.call (w : alsoW α) (h : Heap α) (r : Ref) : Heap α × Ref :=
  (h.write r (w.fn (h.read r)), r)

/-- Chaining operator for the also wrapper (src/scopefn.hpp lines
328-353): returns the wrapper applied to the context object. -/
def alsoPipe (h : Heap α) (r : Ref) (w : alsoW α) : Heap α × Ref :=
  w.call h r

/-- Freestanding with wrapper (src/scopefn.hpp lines 282-293): stores the
nullary callable. -/
structure withW (α β : Type) where
  fn : Heap α → Heap α × β

/-- The call operator of the with wrapper (src/scopefn.hpp lines
287-290). -/
def withW.call (w : withW α β) (h : Heap α) : Heap α × β := w.fn h

/-- Construction of a with wrapper (src/scopefn.hpp line 286): the
constructor stores the callable and immediately invokes the wrapper once;
the value of that invocation is discarded (the constructor body is an
expression statement) and the construction produces the wrapper object. -/
def withW.construct (g : Heap α → Heap α × β) (h : Heap α) : Heap α × withW α β :=
  ((withW.mk g).call h |>.1, withW.mk g)

/-! ## Chains

A pipeline built with the chaining operator, modelled over one value type.
A let or run step returns its result by value, so the chaining operator
yields a temporary that the next link receives through the rvalue overload:
the model materializes it into a fresh cell.  An also step returns the
context reference unchanged. -/

/-- One link of a pipeline: the chainable wrapper it was built from. -/
inductive Step (α : Type) where
  | letS : (α → α × α) → Step α
  | alsoS : (α → α × α) → Step α
  | runS : (Unit → α) → Step α

/-- Whether a link is an also link. -/
def Step.isAlso : Step α → Bool
  | .alsoS _ => true
  | _ => false

/-- One application of the chaining operator, from the current context
reference to the next one, using the operator definitions above. -/
def chainStep (h : Heap α) (r : Ref) : Step α → Heap α × Ref
  | .letS f => (letPipe h r ⟨f⟩).1.alloc (letPipe h r ⟨f⟩).2
  | .alsoS f => alsoPipe h r (alsoW.ofLambda f)
  | .runS g => (runPipe h r ⟨fun hh => (hh, g ())⟩).1.alloc (runPipe h r ⟨fun hh => (hh, g ())⟩).2

/-- A whole pipeline, evaluated left to right. -/
def runChain (h : Heap α) (r : Ref) : List (Step α) → Heap α × Ref
  | [] => (h, r)
  | s :: rest => runChain (chainStep h r s).1 (chainStep h r s).2 rest

/-- The reference each link of the pipeline receives as its context
object. -/
def observedRefs (h : Heap α) (r : Ref) : List (Step α) → List Ref
  | [] => []
  | s :: rest => r :: observedRefs (chainStep h r s).1 (chainStep h r s).2 rest

/-- Reference implementation of a pipeline: manual application of the same
callables in left-to-right order on a plain value, no chaining operator
and no heap. -/
def refFold (v : α) : List (Step α) → α
  | [] => v
  | .letS f :: rest => refFold (f v).2 rest
  | .alsoS f :: rest => refFold (f v).1 rest
  | .runS g :: rest => refFold (g ()) rest

/-- The value one pipeline link passes to the next in the reference
implementation. -/
def stepValue (v : α) : Step α → α
  | .letS f => (f v).2
  | .alsoS f => (f v).1
  | .runS g => g ()

/-! ## Fallible callables

For the failure-propagation claim the callables may throw: a one-argument
callable yields the final value of its by-reference argument (writes done
before the throw persist) together with either a normal result or the
exception; a nullary callable likewise yields the final heap. -/

namespace ScopeFunctions

/-- Mixin let with a throwing callable (src/scopefn.hpp lines 101-108):
the source returns the call expression directly, so an exception escapes
the combinator unchanged, after the writes the callable made through the
reference. -/
def letE (h : Heap α) (self : Ref) (f : α → α × Except ε β) :
    Heap α × Except ε β :=
  let p := f (h.read self)
  (h.write self p.1, p.2)

/-- Mixin run with a throwing callable (src/scopefn.hpp lines 120-124). -/
def runE (h : Heap α) (_self : Ref) (g : Heap α → Heap α × Except ε β) :
    Heap α × Except ε β :=
  g h

/-- Mixin apply with a throwing callable (src/scopefn.hpp lines 136-142):
if the callable throws, the return statement is never reached and the
exception escapes; otherwise the reference to the host is returned. -/
def applyE (h : Heap α) (self : Ref) (g : Heap α → Heap α × Except ε γ) :
    Heap α × Except ε Ref :=
  ((g h).1, (g h).2.map fun _ => self)

/-- Mixin also with a throwing callable (src/scopefn.hpp lines 154-164). -/
def alsoE (h : Heap α) (self : Ref) (f : α → α × Except ε γ) :
    Heap α × Except ε Ref :=
  let p := f (h.read self)
  (h.write self p.1, p.2.map fun _ => self)

end ScopeFunctions

/-! ## Fallible freestanding wrappers

The same source wrappers under throwing callables.  The stored
std::function of the also wrapper returns void, but an exception raised by
the underlying callable still escapes its invocation, so the stored
function is modelled as yielding the final argument value together with
either unit or the exception. -/

/-- Freestanding let wrapper with a throwing callable (src/scopefn.hpp
lines 175-184). -/
structure letWE (α ε β : Type) where
  fn : α → α × Except ε β

/-- The call operator of the let wrapper (src/scopefn.hpp line 181) under
a throwing callable: writes through the reference persist and the
exception escapes the return expression unchanged. -/
def letWE.call (w : letWE α ε β) (h : Heap α) (r : Ref) : Heap α × Except ε β :=
  let p := w.fn (h.read r)
  (h.write r p.1, p.2)

/-- Chaining operator for the let wrapper (src/scopefn.hpp lines 195-220)
under a throwing callable: the operator body only returns the call
expression, so the exception escapes unchanged. -/
def letPipeE (h : Heap α) (r : Ref) (w : letWE α ε β) : Heap α × Except ε β :=
  w.call h r

/-- Freestanding run wrapper with a throwing callable (src/scopefn.hpp
lines 230-241). -/
structure runWE (α ε β : Type) where
  fn : Heap α → Heap α × Except ε β

/-- The call operator of the run wrapper (src/scopefn.hpp lines 235-238)
under a throwing callable. -/
def runWE.call (w : runWE α ε β) (h : Heap α) : Heap α × Except ε β := w.fn h

/-- Chaining operator for the run wrapper (src/scopefn.hpp lines 252-271)
under a throwing callable: the context operand is ignored. -/
def runPipeE (h : Heap α) (_r : Ref) (w : runWE α ε β) : Heap α × Except ε β :=
  w.call h

/-- Freestanding also wrapper with a throwing callable: the stored
void-returning std::function (src/scopefn.hpp lines 308, 316) discards
the result but still propagates the exception. -/
structure alsoWE (α ε : Type) where
  fn : α → α × Except ε Unit

/-- The converting constructor of the also wrapper (src/scopefn.hpp line
309) under a throwing callable: the result of any type is discarded, the
exception is kept. -/
def alsoWE.ofLambda (f : α → α × Except ε γ) : alsoWE α ε :=
  ⟨fun a => ((f a).1, (f a).2.map fun _ => ())⟩

/-- The call operator of the also wrapper (src/scopefn.hpp lines 310-314)
under a throwing callable: if the stored function throws, the return
statement is never reached and the exception escapes after the writes the
callable made through the reference. -/
def alsoWE.call (w : alsoWE α ε) (h : Heap α) (r : Ref) : Heap α × Except ε Ref :=
  let p := w.fn (h.read r)
  (h.write r p.1, p.2.map fun _ => r)

/-- Chaining operator for the also wrapper (src/scopefn.hpp lines
328-353) under a throwing callable. -/
def alsoPipeE (h : Heap α) (r : Ref) (w : alsoWE α ε) : Heap α × Except ε Ref :=
  w.call h r

/-- Freestanding with wrapper with a throwing callable (src/scopefn.hpp
lines 282-293). -/
structure withWE (α ε β : Type) where
  fn : Heap α → Heap α × Except ε β

/-- Construction of a with wrapper (src/scopefn.hpp line 286) under a
throwing callable: the constructor invokes the callable once; if it
throws, the construction never completes and the exception escapes after
the effects the callable performed through its captures. -/
def withWE.construct (g : Heap α → Heap α × Except ε β) (h : Heap α) :
    Heap α × Except ε (withWE α ε β) :=
  ((g h).1, (g h).2.map fun _ => withWE.mk g)

/-! ## Instrumentation used to observe invocation counts -/

/-- Wraps a one-argument callable so that the host object carries an
invocation counter which the wrapped callable increments each time it is
invoked. -/
def countWrap (f : α → α × β) : α × Nat → (α × Nat) × β :=
  fun p => (((f p.1).1, p.2 + 1), (f p.1).2)

/-- A nullary callable that increments a counter cell each time it is
invoked and produces the given result. -/
def bump (c : Ref) (b : β) : Heap Nat → Heap Nat × β :=
  fun h => (h.write c (h.read c + 1), b)

/-- A nullary callable that increments a counter cell and returns the
count it observed, so its result depends on when it is invoked. -/
def bumpRead (c : Ref) : Heap Nat → Heap Nat × Nat :=
  fun h => (h.write c (h.read c + 1), h.read c)

/-! ## Concrete data used by witnesses -/

/-- A concrete heap whose live cell 0 holds 3. -/
def heap3 : Heap Nat := ⟨fun _ => 3, 1⟩

/-- A concrete one-argument callable that increments its argument and then
throws. -/
def throwF : Nat → Nat × Except String Nat :=
  fun v => (v + 1, Except.error "boom")

/-- A concrete nullary callable that writes 9 into cell 0 through a
capture and then throws. -/
def throwG : Heap Nat → Heap Nat × Except String Nat :=
  fun hh => (hh.write 0 9, Except.error "boom")

/-! ## Heap lemmas -/

theorem Heap.read_write (h : Heap α) (r : Ref) (v : α) :
    (h.write r v).read r = v := by
  simp [Heap.read, Heap.write]

theorem Heap.read_write_ne (h : Heap α) {r r' : Ref} (v : α) (hne : r' ≠ r) :
    (h.write r v).read r' = h.read r' := by
  simp [Heap.read, Heap.write, hne]

theorem Heap.next_write (h : Heap α) (r : Ref) (v : α) :
    (h.write r v).next = h.next := rfl

theorem Heap.read_alloc_fresh (h : Heap α) (v : α) :
    (h.alloc v).1.read (h.alloc v).2 = v := by
  simp [Heap.read, Heap.alloc]

theorem Heap.read_alloc_old (h : Heap α) (v : α) {r : Ref} (hr : r < h.next) :
    (h.alloc v).1.read r = h.read r := by
  simp only [Heap.read, Heap.alloc]
  exact if_neg (Nat.ne_of_lt hr)

theorem Heap.alloc_ref (h : Heap α) (v : α) : (h.alloc v).2 = h.next := rfl

theorem Heap.alloc_next (h : Heap α) (v : α) :
    (h.alloc v).1.next = h.next + 1 := rfl

/-! ## Chain lemmas -/

theorem chainStep_read (h : Heap α) (r : Ref) (s : Step α) :
    (chainStep h r s).1.read (chainStep h r s).2 = stepValue (h.read r) s := by
  cases s with
  | letS f =>
    simpa [chainStep, letPipe, letW.call, stepValue] using
      Heap.read_alloc_fresh (h.write r (f (h.read r)).1) (f (h.read r)).2
  | alsoS f =>
    simpa [chainStep, alsoPipe, alsoW.call, alsoW.ofLambda, stepValue] using
      Heap.read_write h r (f (h.read r)).1
  | runS g =>
    simpa [chainStep, runPipe, runW.call, stepValue] using
      Heap.read_alloc_fresh h (g ())

theorem chainStep_valid (h : Heap α) (r : Ref) (hv : r < h.next) (s : Step α) :
    (chainStep h r s).2 < (chainStep h r s).1.next := by
  cases s with
  | letS f =>
    simp only [chainStep]
    exact Nat.lt_succ_self _
  | alsoS f => exact hv
  | runS g =>
    simp only [chainStep]
    exact Nat.lt_succ_self _

theorem refFold_cons (v : α) (s : Step α) (rest : List (Step α)) :
    refFold v (s :: rest) = refFold (stepValue v s) rest := by
  cases s <;> rfl

theorem runChain_spec (L : List (Step α)) :
    ∀ (h : Heap α) (r : Ref), r < h.next →
      (runChain h r L).1.read (runChain h r L).2 = refFold (h.read r) L ∧
      (runChain h r L).2 < (runChain h r L).1.next := by
  induction L with
  | nil => exact fun h r hv => ⟨rfl, hv⟩
  | cons s rest ih =>
    intro h r hv
    have hv' := chainStep_valid h r hv s
    have hrd := chainStep_read h r s
    have hmain := ih (chainStep h r s).1 (chainStep h r s).2 hv'
    refine ⟨?_, hmain.2⟩
    have hrc : runChain h r (s :: rest)
        = runChain (chainStep h r s).1 (chainStep h r s).2 rest := rfl
    rw [hrc, refFold_cons, ← hrd]
    exact hmain.1

/-! ## Claims -/

/-- Claim C1: for every host type opting into the capability mixin and
every compatible callable, the mixin let invokes the callable with a
mutable reference to the host instance itself and returns exactly the
callable result; every mutation the callable performs through that
reference lands in the host cell itself, every other cell is untouched and
no allocation happens (no copy is made). -/
theorem mixin_let_runs_on_host_in_place (h : Heap α) (r : Ref) (f : α → α × β) :
    (ScopeFunctions.«let» h r f).2 = (f (h.read r)).2 ∧
    (ScopeFunctions.«let» h r f).1.read r = (f (h.read r)).1 ∧
    (∀ r', r' ≠ r → (ScopeFunctions.«let» h r f).1.read r' = h.read r') ∧
    (ScopeFunctions.«let» h r f).1.next = h.next :=
  ⟨rfl, Heap.read_write h r (f (h.read r)).1,
    fun _r' hne => Heap.read_write_ne h (f (h.read r)).1 hne, rfl⟩

/-- Witness for claim C1 at a concrete heap, reference and callable. -/
theorem mixin_let_runs_on_host_in_place_witness :
    (ScopeFunctions.«let» (Heap.mk (fun _ => (0 : Nat)) 2) 0
        (fun v => (v + 1, v * 2))).1.read 1 = 0 :=
  (mixin_let_runs_on_host_in_place (Heap.mk (fun _ => (0 : Nat)) 2) 0
    (fun v => (v + 1, v * 2))).2.2.1 1 (by decide)

/-- Claim C2: the mixin operations apply and also, the freestanding also
wrapper and its chaining operator all return the reference of the original
context object, whatever the callable returns; writing through the
returned reference is read back through the original reference and the
other way round. -/
theorem self_returning_combinators_alias_context (h : Heap α) (r : Ref)
    (g : Heap α → Heap α × γ) (f : α → α × γ) (fd : α → α × δ)
    (w : alsoW α) (v v' : α) :
    (ScopeFunctions.apply h r g).2 = r ∧
    (ScopeFunctions.also h r f).2 = r ∧
    (alsoW.call w h r).2 = r ∧
    (alsoPipe h r (alsoW.ofLambda fd)).2 = r ∧
    ((ScopeFunctions.apply h r g).1.write (ScopeFunctions.apply h r g).2 v).read r = v ∧
    ((ScopeFunctions.also h r f).1.write r v').read (ScopeFunctions.also h r f).2 = v' :=
  ⟨rfl, rfl, rfl, rfl,
    Heap.read_write (ScopeFunctions.apply h r g).1 r v,
    Heap.read_write (ScopeFunctions.also h r f).1 r v'⟩

/-- Counterexample to claim C3 as stated: in the chain starting on cell 0
(holding 10) whose first link is a let whose callable returns the context
object and whose second link is an also, the second link does not observe
the starting object: it receives the fresh cell 1 holding the returned
copy, its mutation lands there (cell 1 becomes 11) and the starting cell
still holds 10. -/
theorem chain_observes_start_identity_counterexample :
    ¬ (∀ x ∈ observedRefs (Heap.mk (fun _ => (10 : Nat)) 1) 0
          [Step.letS (fun v => (v, v)), Step.alsoS (fun v => (v + 1, v))], x = 0) ∧
    observedRefs (Heap.mk (fun _ => (10 : Nat)) 1) 0
        [Step.letS (fun v => (v, v)), Step.alsoS (fun v => (v + 1, v))] = [0, 1] ∧
    (runChain (Heap.mk (fun _ => (10 : Nat)) 1) 0
        [Step.letS (fun v => (v, v)), Step.alsoS (fun v => (v + 1, v))]).1.read 0 = 10 ∧
    (runChain (Heap.mk (fun _ => (10 : Nat)) 1) 0
        [Step.letS (fun v => (v, v)), Step.alsoS (fun v => (v + 1, v))]).1.read 1 = 11 := by
  refine ⟨?_, by decide, by decide, by decide⟩
  intro hall
  exact absurd (hall 1 (by decide)) (by decide)

/-- Claim C3 amended: an argument-receiving chain preserves the identity
of the starting object across every link when all its links are also
links; a let link instead moves the chain onto a fresh object holding the
callable result (see claim C10), so links after it observe that object. -/
theorem also_chain_preserves_identity (h : Heap α) (r : Ref) (L : List (Step α))
    (hall : ∀ s ∈ L, s.isAlso = true) :
    (∀ x ∈ observedRefs h r L, x = r) ∧ (runChain h r L).2 = r := by
  induction L generalizing h with
  | nil => exact ⟨fun x hx => by simp [observedRefs] at hx, rfl⟩
  | cons s rest ih =>
    have hs := hall s (List.mem_cons_self s rest)
    cases s with
    | letS f => simp [Step.isAlso] at hs
    | runS g => simp [Step.isAlso] at hs
    | alsoS f =>
      have hrest := ih (chainStep h r (Step.alsoS f)).1
        (fun t ht => hall t (List.mem_cons_of_mem _ ht))
      constructor
      · intro x hx
        rw [show observedRefs h r (Step.alsoS f :: rest)
            = r :: observedRefs (chainStep h r (Step.alsoS f)).1 r rest from rfl] at hx
        rcases List.mem_cons.mp hx with h1 | h2
        · exact h1
        · exact hrest.1 x h2
      · exact hrest.2

/-- Witness for the amended claim C3 on a concrete chain of two also
links. -/
theorem also_chain_preserves_identity_witness :
    (runChain (Heap.mk (fun _ => (0 : Nat)) 1) 0
        [Step.alsoS (fun v => (v + 1, v)), Step.alsoS (fun v => (v * 2, v))]).2 = 0 :=
  (also_chain_preserves_identity (Heap.mk (fun _ => (0 : Nat)) 1) 0
    [Step.alsoS (fun v => (v + 1, v)), Step.alsoS (fun v => (v * 2, v))]
    (by decide)).2

/-- Counterexample to claim C4 as stated: the construction of a with
wrapper does not yield the callable result; it yields the wrapper object,
and the result of the construction-time invocation is discarded.  With the
callable bumpRead 0, the construction-time invocation returns 0, the
constructed value is the bare wrapper, and the only way to obtain a result
from it is a second invocation, which returns 1 and raises the invocation
counter to 2. -/
theorem with_construction_yields_wrapper_counterexample :
    (withW.construct (bumpRead 0) (Heap.mk (fun _ => (0 : Nat)) 1)).2
        = withW.mk (bumpRead 0) ∧
    (bumpRead 0 (Heap.mk (fun _ => (0 : Nat)) 1)).2 = 0 ∧
    ((withW.construct (bumpRead 0) (Heap.mk (fun _ => (0 : Nat)) 1)).2.call
        (withW.construct (bumpRead 0) (Heap.mk (fun _ => (0 : Nat)) 1)).1).2 = 1 ∧
    ((withW.construct (bumpRead 0) (Heap.mk (fun _ => (0 : Nat)) 1)).2.call
        (withW.construct (bumpRead 0) (Heap.mk (fun _ => (0 : Nat)) 1)).1).1.read 0 = 2 :=
  ⟨rfl, rfl, by decide, by decide⟩

/-- Claim C4 amended: constructing a with wrapper executes the callable
exactly once, at the moment of construction and before the surrounding
expression consumes the constructed value; the result of that invocation
is discarded and the construction yields the wrapper object holding the
callable; with cannot appear as the right operand of the chaining operator
because no such operator is defined for it. -/
theorem with_executes_once_at_construction (g : Heap α → Heap α × β)
    (h : Heap α) (c : Ref) (b : γ) (hn : Heap Nat) :
    (withW.construct g h).1 = (g h).1 ∧
    (withW.construct g h).2 = withW.mk g ∧
    (withW.construct (bump c b) hn).1.read c = hn.read c + 1 ∧
    hasChainOp WrapperKind.withK = false :=
  ⟨rfl, rfl, Heap.read_write hn c (hn.read c + 1), rfl⟩

/-- Claim C5: every combinator invokes its owned callable exactly once per
application, synchronously, before returning.  Each conjunct instruments
the callable with an invocation counter (carried in the host value for
argument-receiving combinators, in a designated cell for capturing ones)
and shows one application raises the count by exactly one; the last
conjunct shows a second application invokes the callable again, so nothing
is memoized. -/
theorem combinators_invoke_callable_exactly_once
    (h : Heap (α × Nat)) (r : Ref) (f : α → α × β)
    (hn : Heap Nat) (r0 c : Ref) (b : γ) :
    ((ScopeFunctions.«let» h r (countWrap f)).1.read r).2 = (h.read r).2 + 1 ∧
    ((ScopeFunctions.also h r (countWrap f)).1.read r).2 = (h.read r).2 + 1 ∧
    (ScopeFunctions.run hn r0 (bump c b)).1.read c = hn.read c + 1 ∧
    (ScopeFunctions.apply hn r0 (bump c b)).1.read c = hn.read c + 1 ∧
    ((letPipe h r ⟨countWrap f⟩).1.read r).2 = (h.read r).2 + 1 ∧
    ((alsoPipe h r (alsoW.ofLambda (countWrap f))).1.read r).2 = (h.read r).2 + 1 ∧
    (runPipe hn r0 ⟨bump c b⟩).1.read c = hn.read c + 1 ∧
    (withW.construct (bump c b) hn).1.read c = hn.read c + 1 ∧
    (ScopeFunctions.run (ScopeFunctions.run hn r0 (bump c b)).1 r0 (bump c b)).1.read c
        = hn.read c + 2 := by
  refine ⟨?_, ?_, ?_, ?_, ?_, ?_, ?_, ?_, ?_⟩ <;>
    simp [ScopeFunctions.«let», ScopeFunctions.also, ScopeFunctions.run,
      ScopeFunctions.apply, letPipe, letW.call, alsoPipe, alsoW.call,
      alsoW.ofLambda, runPipe, runW.call, withW.construct, withW.call,
      countWrap, bump, Heap.read_write]

/-- Claim C6: for every context-receiving combinator, mixin or
freestanding, a callable whose deduced qualifier-stripped parameter type
differs from the qualifier-stripped context or host type is rejected by
the compile-time check; moreover acceptance holds exactly when the deduced
parameter type equals the host type, so no mismatch survives to run
time. -/
theorem param_mismatch_is_compile_error (host : String) (sig : LambdaSig) :
    (∀ p, scopefn_internal.LambdaReflection.argument_type sig = some p →
      p ≠ plain host →
      mixinLetAccepts host sig = false ∧ mixinAlsoAccepts host sig = false ∧
      letPipeAccepts host sig = false ∧ alsoPipeAccepts host sig = false) ∧
    (mixinLetAccepts host sig = true ↔
      scopefn_internal.LambdaReflection.argument_type sig = some (plain host)) := by
  constructor
  · intro p hp hne
    have hfalse : (scopefn_internal.LambdaReflection.argument_type sig
        == some (plain host)) = false := by
      rw [hp, beq_eq_false_iff_ne]
      simpa using hne
    exact ⟨hfalse, hfalse, hfalse, hfalse⟩
  · simp [mixinLetAccepts]

/-- Witness for claim C6: a callable taking a Dog reference is rejected by
the let of a host of type Animal. -/
theorem param_mismatch_is_compile_error_witness :
    mixinLetAccepts "Animal" ⟨plain "Animal", [⟨"Dog", false, true⟩]⟩ = false :=
  ((param_mismatch_is_compile_error "Animal"
      ⟨plain "Animal", [⟨"Dog", false, true⟩]⟩).1
    (plain "Dog") rfl (by decide)).1

/-- Claim C7: for every capture-style combinator, mixin or freestanding,
including the mixin apply, a callable that does not take zero parameters
is rejected at compile time. -/
theorem arity_mismatch_is_compile_error (sig : LambdaSig)
    (hne : sig.params ≠ []) :
    mixinRunAccepts sig = false ∧ mixinApplyAccepts sig = false ∧
    runPipeAccepts sig = false ∧ withAccepts sig = false := by
  have hem : sig.params.isEmpty = false := by
    simpa [List.isEmpty_iff] using hne
  refine ⟨?_, hem, ?_, ?_⟩ <;>
    simp [mixinRunAccepts, runPipeAccepts, withAccepts,
      scopefn_internal.LambdaReflectionNoArg.return_type, hne]

/-- Witness for claim C7: a unary callable is rejected by run, apply, the
run chaining operator and with. -/
theorem arity_mismatch_is_compile_error_witness :
    mixinRunAccepts ⟨plain "bool", [plain "Animal"]⟩ = false ∧
    mixinApplyAccepts ⟨plain "bool", [plain "Animal"]⟩ = false :=
  ⟨(arity_mismatch_is_compile_error ⟨plain "bool", [plain "Animal"]⟩ (by decide)).1,
    (arity_mismatch_is_compile_error ⟨plain "bool", [plain "Animal"]⟩ (by decide)).2.1⟩

/-- Claim C8: a pipeline composed with the chaining operator, mixing the
chainable combinators, produces a final value identical to applying the
same callables manually in left-to-right order on a plain value with no
chaining (each step output becoming the next step input); the hypothesis
says the starting reference designates a live cell. -/
theorem chain_equals_reference_implementation (h : Heap α) (r : Ref)
    (L : List (Step α)) (hv : r < h.next) :
    (runChain h r L).1.read (runChain h r L).2 = refFold (h.read r) L :=
  (runChain_spec L h r hv).1

/-- Witness for claim C8 on a concrete four-link pipeline mixing let, also
and run. -/
theorem chain_equals_reference_implementation_witness :
    (runChain (Heap.mk (fun _ => (1 : Nat)) 1) 0
        [Step.letS (fun v => (v + 1, v * 2)), Step.alsoS (fun v => (v + 3, v)),
          Step.runS (fun _ => 7), Step.letS (fun v => (v, v + 1))]).1.read
      (runChain (Heap.mk (fun _ => (1 : Nat)) 1) 0
        [Step.letS (fun v => (v + 1, v * 2)), Step.alsoS (fun v => (v + 3, v)),
          Step.runS (fun _ => 7), Step.letS (fun v => (v, v + 1))]).2 = 8 :=
  (chain_equals_reference_implementation (Heap.mk (fun _ => (1 : Nat)) 1) 0
    [Step.letS (fun v => (v + 1, v * 2)), Step.alsoS (fun v => (v + 3, v)),
      Step.runS (fun _ => 7), Step.letS (fun v => (v, v + 1))]
    (by decide)).trans (by decide)

/-- Claim C9: when the callable of a combinator fails at run time, the
combinator neither catches nor modifies the failure: for every combinator
(the four mixin operations, the freestanding let, run and also wrappers
driven through their chaining operators, and the construction of with)
the outcome is exactly the error the callable raised, and the context
object and heap are exactly as the callable left them, as if the callable
had been invoked directly without wrapping. -/
theorem callable_failure_propagates_unmodified
    (h h' : Heap α) (r : Ref) (e : ε) (v : α)
    (f : α → α × Except ε β) (g : Heap α → Heap α × Except ε β)
    (fa : α → α × Except ε γ) (ga : Heap α → Heap α × Except ε γ) :
    (f (h.read r) = (v, Except.error e) →
      ScopeFunctions.letE h r f = (h.write r v, Except.error e)) ∧
    (g h = (h', Except.error e) →
      ScopeFunctions.runE h r g = (h', Except.error e)) ∧
    (ga h = (h', Except.error e) →
      ScopeFunctions.applyE h r ga = (h', Except.error e)) ∧
    (fa (h.read r) = (v, Except.error e) →
      ScopeFunctions.alsoE h r fa = (h.write r v, Except.error e)) ∧
    (f (h.read r) = (v, Except.error e) →
      letPipeE h r (letWE.mk f) = (h.write r v, Except.error e)) ∧
    (g h = (h', Except.error e) →
      runPipeE h r (runWE.mk g) = (h', Except.error e)) ∧
    (fa (h.read r) = (v, Except.error e) →
      alsoPipeE h r (alsoWE.ofLambda fa) = (h.write r v, Except.error e)) ∧
    (g h = (h', Except.error e) →
      withWE.construct g h = (h', Except.error e)) := by
  refine ⟨fun hf => ?_, fun hg => ?_, fun hg => ?_, fun hf => ?_,
    fun hf => ?_, fun hg => ?_, fun hf => ?_, fun hg => ?_⟩
  · simp [ScopeFunctions.letE, hf]
  · simpa [ScopeFunctions.runE] using hg
  · simp [ScopeFunctions.applyE, hg, Except.map]
  · simp [ScopeFunctions.alsoE, hf, Except.map]
  · simp [letPipeE, letWE.call, hf]
  · simpa [runPipeE, runWE.call] using hg
  · simp [alsoPipeE, alsoWE.call, alsoWE.ofLambda, hf, Except.map]
  · simp [withWE.construct, hg, Except.map]

/-- Witness for claim C9 with concrete throwing callables across the
mixin operations, the wrapper chaining operators and the with
construction. -/
theorem callable_failure_propagates_unmodified_witness :
    ScopeFunctions.letE heap3 0 throwF = (heap3.write 0 4, Except.error "boom") ∧
    ScopeFunctions.runE heap3 0 throwG = (heap3.write 0 9, Except.error "boom") ∧
    ScopeFunctions.applyE heap3 0 throwG = (heap3.write 0 9, Except.error "boom") ∧
    ScopeFunctions.alsoE heap3 0 throwF = (heap3.write 0 4, Except.error "boom") ∧
    letPipeE heap3 0 (letWE.mk throwF) = (heap3.write 0 4, Except.error "boom") ∧
    runPipeE heap3 0 (runWE.mk throwG) = (heap3.write 0 9, Except.error "boom") ∧
    alsoPipeE heap3 0 (alsoWE.ofLambda throwF) = (heap3.write 0 4, Except.error "boom") ∧
    withWE.construct throwG heap3 = (heap3.write 0 9, Except.error "boom") :=
  ⟨(callable_failure_propagates_unmodified heap3 (heap3.write 0 9) 0 "boom" 4
      throwF throwG throwF throwG).1 rfl,
    (callable_failure_propagates_unmodified heap3 (heap3.write 0 9) 0 "boom" 4
      throwF throwG throwF throwG).2.1 rfl,
    (callable_failure_propagates_unmodified heap3 (heap3.write 0 9) 0 "boom" 4
      throwF throwG throwF throwG).2.2.1 rfl,
    (callable_failure_propagates_unmodified heap3 (heap3.write 0 9) 0 "boom" 4
      throwF throwG throwF throwG).2.2.2.1 rfl,
    (callable_failure_propagates_unmodified heap3 (heap3.write 0 9) 0 "boom" 4
      throwF throwG throwF throwG).2.2.2.2.1 rfl,
    (callable_failure_propagates_unmodified heap3 (heap3.write 0 9) 0 "boom" 4
      throwF throwG throwF throwG).2.2.2.2.2.1 rfl,
    (callable_failure_propagates_unmodified heap3 (heap3.write 0 9) 0 "boom" 4
      throwF throwG throwF throwG).2.2.2.2.2.2.1 rfl,
    (callable_failure_propagates_unmodified heap3 (heap3.write 0 9) 0 "boom" 4
      throwF throwG throwF throwG).2.2.2.2.2.2.2 rfl⟩

/-- Claim C10: the deduced return type of let strips references and cv
qualifiers, so let returns by value; a callable that returns the context
object hands the chain a fresh copy in a new cell, and a subsequent chain
link operates on that copy: its mutation is visible on the copy and the
original object is unchanged. -/
theorem let_returns_stripped_value_copy (sig : LambdaSig) (rt : QualType)
    (hrt : scopefn_internal.LambdaReflection.return_type sig = some rt)
    (h : Heap α) (r : Ref) (g : α → α × α) (hv : r < h.next) :
    rt.isRef = false ∧ rt.isConst = false ∧
    (chainStep h r (Step.letS (fun v => (v, v)))).2 ≠ r ∧
    (chainStep h r (Step.letS (fun v => (v, v)))).1.read
        (chainStep h r (Step.letS (fun v => (v, v)))).2 = h.read r ∧
    (chainStep (chainStep h r (Step.letS (fun v => (v, v)))).1
        (chainStep h r (Step.letS (fun v => (v, v)))).2 (Step.alsoS g)).1.read r
      = h.read r ∧
    (chainStep (chainStep h r (Step.letS (fun v => (v, v)))).1
        (chainStep h r (Step.letS (fun v => (v, v)))).2 (Step.alsoS g)).1.read
        (chainStep h r (Step.letS (fun v => (v, v)))).2
      = (g (h.read r)).1 := by
  have hbase : rt = base_type sig.ret := by
    by_cases hp : sig.params.length = 1
    · simp [scopefn_internal.LambdaReflection.return_type, hp] at hrt
      exact hrt.symm
    · simp [scopefn_internal.LambdaReflection.return_type, hp] at hrt
  have hner : r ≠ h.next := Nat.ne_of_lt hv
  refine ⟨hbase ▸ rfl, hbase ▸ rfl, ?_, ?_, ?_, ?_⟩
  · exact fun hc => hner hc.symm
  · exact Heap.read_alloc_fresh (h.write r (h.read r)) (h.read r)
  · show ((((h.write r (h.read r)).alloc (h.read r)).1.write
        ((h.write r (h.read r)).alloc (h.read r)).2 _).read r) = h.read r
    rw [Heap.read_write_ne _ _ (by simpa [Heap.alloc_ref, Heap.next_write] using hner),
      Heap.read_alloc_old _ _ (by simpa [Heap.next_write] using hv),
      Heap.read_write]
  · show ((((h.write r (h.read r)).alloc (h.read r)).1.write
        ((h.write r (h.read r)).alloc (h.read r)).2
        ((alsoW.ofLambda g).fn
          (((h.write r (h.read r)).alloc (h.read r)).1.read
            ((h.write r (h.read r)).alloc (h.read r)).2))).read
        ((h.write r (h.read r)).alloc (h.read r)).2) = (g (h.read r)).1
    rw [Heap.read_write, Heap.read_alloc_fresh]
    rfl

/-- Witness for claim C10 on a concrete signature, heap and follow-up
callable. -/
theorem let_returns_stripped_value_copy_witness :
    (chainStep (chainStep (Heap.mk (fun _ => (5 : Nat)) 1) 0
        (Step.letS (fun v => (v, v)))).1
      (chainStep (Heap.mk (fun _ => (5 : Nat)) 1) 0
        (Step.letS (fun v => (v, v)))).2
      (Step.alsoS (fun v => (v + 2, v)))).1.read 0 = 5 :=
  (let_returns_stripped_value_copy ⟨⟨"Animal", true, true⟩, [⟨"Animal", false, true⟩]⟩
    (plain "Animal") rfl (Heap.mk (fun _ => (5 : Nat)) 1) 0
    (fun v => (v + 2, v)) (by decide)).2.2.2.2.1

end scopefn
